import Mathlib

/-!
Verification of the cfn-stack library (a CloudFormation stack manager).

The repository ships two behaviourally parallel implementations of a
`Stack` class: the current one in src/index.ts (aws-sdk v3) and an older
one (aws-sdk v2).  The definitions in namespace `CfnStack` are a shallow
embedding of src/index.ts; namespace `CfnStack.V2` embeds the aws-sdk v2
variant.  Timestamps (JS `Date` values compared with `>=`) are modelled
as integers; the gateway (the CloudFormation service) is modelled by the
data it returns: a `describeStacks` response (an optional list of stack
records) and one event list per poll of `describeStackEvents`.  Console
output is modelled as the list of events printed, per poll iteration.
-/

namespace CfnStack

/-- A stack event as consumed by waitFor / logEvent (describeStackEvents
record): EventId, Timestamp, ResourceType, LogicalResourceId,
ResourceStatus, ResourceStatusReason. -/
structure StackEvent where
  eventId : String
  timestamp : Int
  resourceType : String
  logicalResourceId : String
  resourceStatus : Option String
  resourceStatusReason : Option String
deriving DecidableEq

/-- One output record of a stack (OutputKey / OutputValue, both optional
in the SDK shape). -/
structure Output where
  outputKey : Option String
  outputValue : Option String
deriving DecidableEq

/-- One stack record of a describeStacks response. -/
structure StackRecord where
  stackId : Option String
  outputs : Option (List Output)
deriving DecidableEq

/-- The mutable state of one waitFor invocation: the `shown` set of
event ids, the tracked `status` string, and the cumulative list of
printed events (modelling the console). -/
structure LoopState where
  shown : List String
  status : String
  printed : List StackEvent
deriving DecidableEq

/-- State at loop entry: empty shown set, status the empty string, and
nothing printed yet. -/
def initState : LoopState := { shown := [], status := "", printed := [] }

/-- The seven alternatives of the `finished` regex in waitFor
(src/index.ts line 67). -/
def terminalStatuses : List String :=
  ["CREATE_COMPLETE", "UPDATE_COMPLETE", "DELETE_COMPLETE", "ROLLBACK_COMPLETE",
   "ROLLBACK_FAILED", "CREATE_FAILED", "DELETE_FAILED"]

/-- The loop guard test status.match(finished): the regex
(A|B|...|G)$ is anchored only at the end, so it holds exactly when some
alternative is a suffix of the status string. -/
def matchesFinished (status : String) : Bool :=
  terminalStatuses.any (fun t => t.data.isSuffixOf status.data)

/-- The filter/reverse step of one poll iteration (src/index.ts lines
73-75): keep events with Timestamp >= start whose EventId is not in the
shown set, then reverse. -/
def selectEvents (start : Int) (shown : List String) (events : List StackEvent) :
    List StackEvent :=
  (events.filter (fun e => decide (start ≤ e.timestamp) && !(shown.contains e.eventId))).reverse

/-- The body of the forEach in waitFor (src/index.ts lines 76-82): print
the event, add its id to the shown set, and update the tracked status
when the event is for the stack aggregate resource type. -/
def processEvent (e : StackEvent) (s : LoopState) : LoopState :=
  { shown := e.eventId :: s.shown
    status := if e.resourceType = "AWS::CloudFormation::Stack"
              then e.resourceStatus.getD "" else s.status
    printed := s.printed ++ [e] }

/-- forEach over the selected events, left to right. -/
def processEvents : List StackEvent → LoopState → LoopState
  | [], s => s
  | e :: es, s => processEvents es (processEvent e s)

/-- The while loop of waitFor (src/index.ts lines 69-83), run against a
finite list of describeStackEvents responses, one per poll.  Returns the
per-iteration lists of printed events, the final state, and whether the
loop guard became false within the supplied responses (false means the
loop would keep polling beyond the modelled responses). -/
def waitForRun (start : Int) :
    List (List StackEvent) → LoopState → List (List StackEvent) × LoopState × Bool
  | [], s => ([], s, matchesFinished s.status)
  | r :: rest, s =>
    if matchesFinished s.status then ([], s, true)
    else
      let sel := selectEvents start s.shown r
      let res := waitForRun start rest (processEvents sel s)
      (sel :: res.1, res.2)

/-- getStackId (src/index.ts lines 90-96): require exactly one stack
record, otherwise throw; the error message text reproduces the source,
including its unbalanced quote. -/
def getStackId (name : String) (sts : Option (List StackRecord)) :
    Except String (Option String) :=
  match sts with
  | some [st] => Except.ok st.stackId
  | _ => Except.error ("No StackId for stack \"" ++ name ++ " found")

/-- waitFor (src/index.ts lines 63-88): resolve the stack id, run the
polling loop, print a closing separator (not modelled), and throw
Unexpected Stack Status when the final status differs from the expected
one.  The outer Option is none when the loop guard never became false
within the modelled responses (the real loop would poll forever there);
the Except models throwing, and the ok value is the print trace. -/
def waitFor (name success : String) (start : Int)
    (stacksResp : Option (List StackRecord)) (responses : List (List StackEvent)) :
    Option (Except String (List (List StackEvent))) :=
  match getStackId name stacksResp with
  | Except.error msg => some (Except.error msg)
  | Except.ok _ =>
    let res := waitForRun start responses initState
    if res.2.2 then
      if res.2.1.status = success then some (Except.ok res.1)
      else some (Except.error ("Unexpected Stack Status " ++ res.2.1.status))
    else none

/-- JS object assignment m[k] = v: overwrite in place when the key is
present (keeping its position), otherwise append. -/
def recordSet (m : List (String × String)) (k v : String) : List (String × String) :=
  match m with
  | [] => [(k, v)]
  | (k', v') :: rest => if k' = k then (k', v) :: rest else (k', v') :: recordSet rest k v

/-- getOutputs (src/index.ts lines 98-109): with exactly one stack
record carrying an Outputs list, collect every output passing the
truthiness guard o.OutputKey && o.OutputValue into the result record;
otherwise return the empty record.  In JS both undefined and the empty
string are falsy, so an entry whose key or value is missing OR empty is
skipped; an Outputs value of undefined fails the outer guard (the none
case) while an empty outputs list passes it. -/
def getOutputs (sts : Option (List StackRecord)) : List (String × String) :=
  match sts with
  | some [st] =>
    match st.outputs with
    | some os =>
      os.foldl
        (fun m o =>
          match o.outputKey, o.outputValue with
          | some k, some v => if k = "" ∨ v = "" then m else recordSet m k v
          | _, _ => m)
        []
    | none => []
  | _ => []

/-- Occurrence of pat as a contiguous substring, checked at every start
position (the semantics of JS String.includes). -/
def containsSub (pat : List Char) : List Char → Bool
  | [] => pat.isPrefixOf []
  | c :: cs => pat.isPrefixOf (c :: cs) || containsSub pat cs

/-- JS err.message.includes(pat). -/
def strContains (s pat : String) : Bool := containsSub pat.data s.data

/-- The error shape inspected by the classification helpers: err.Code
and err.message. -/
structure AwsError where
  code : String
  message : String
deriving DecidableEq

/-- stackDoesNotExist (src/index.ts lines 119-121). -/
def stackDoesNotExist (err : AwsError) : Bool :=
  decide (err.code = "ValidationError") && strContains err.message "does not exist"

/-- stackIsUpToDate (src/index.ts lines 123-125). -/
def stackIsUpToDate (err : AwsError) : Bool :=
  decide (err.code = "ValidationError") && strContains err.message "No updates are to be performed"

/-- One parameter entry built by createOrUpdate from the params record. -/
structure Parameter where
  parameterKey : String
  parameterValue : Option String
  usePreviousValue : Bool
deriving DecidableEq

/-- The UpdateStackInput built by createOrUpdate (src/index.ts lines
37-46): stack name, fixed capabilities, template body and parameter
list; a missing value sets UsePreviousValue. -/
structure StackInput where
  stackName : String
  capabilities : List String
  templateBody : String
  parameters : List Parameter
deriving DecidableEq

/-- Construction of the stack input from name, template and params. -/
def mkStackInput (name template : String) (params : List (String × Option String)) :
    StackInput :=
  { stackName := name
    capabilities := ["CAPABILITY_IAM", "CAPABILITY_NAMED_IAM"]
    templateBody := template
    parameters := params.map (fun p => ⟨p.1, p.2, p.2.isNone⟩) }

/-- Observable steps of createOrUpdate after the updateStack call: the
createStack call (with its OnFailure value and input), the banner
printed by logStackAction, and entering waitFor with a given expected
terminal status. -/
inductive COUStep where
  | calledCreate (onFailure : String) (input : StackInput)
  | loggedAction (msg : String)
  | waited (success : String)
deriving DecidableEq

/-- createOrUpdate (src/index.ts lines 33-61), given the outcome of the
updateStack call and (when reached) of the createStack call.  Returns
the steps performed and the error propagated to the caller, if any.
The outcome of waitFor itself is modelled separately by waitFor. -/
def createOrUpdate (input : StackInput) (updateResult createResult : Except AwsError Unit) :
    List COUStep × Option AwsError :=
  match updateResult with
  | Except.ok _ =>
    ([COUStep.loggedAction "Updating stack", COUStep.waited "UPDATE_COMPLETE"], none)
  | Except.error err =>
    if stackDoesNotExist err then
      match createResult with
      | Except.ok _ =>
        ([COUStep.calledCreate "DELETE" input,
          COUStep.loggedAction "Creating new stack",
          COUStep.waited "CREATE_COMPLETE"], none)
      | Except.error e2 => ([COUStep.calledCreate "DELETE" input], some e2)
    else if stackIsUpToDate err then
      ([COUStep.loggedAction "No updates needed for stack"], none)
    else ([], some err)

/-- fmtTime (src/index.ts line 142): date.toISOString().substring(11, 19),
modelled on the ISO string. -/
def fmtTime (iso : String) : String := String.mk ((iso.data.take 19).drop 11)

/-- fmtReason (src/index.ts lines 139-140); the word-wrap library call
(fixed options) is abstracted as wrapFn, and an empty reason string is
falsy in JS. -/
def fmtReason (wrapFn : String → String) (reason : Option String) : String :=
  match reason with
  | some r => if r = "" then "" else "\n" ++ wrapFn r
  | none => ""

/-- The line built by logEvent (src/index.ts lines 127-137): the five
props, with undefined mapped to the empty string, joined by single
spaces. -/
def logEventLine (wrapFn : String → String) (isoTs : String) (e : StackEvent) : String :=
  String.intercalate " "
    [fmtTime isoTs, e.resourceStatus.getD "", e.resourceType,
     "\"" ++ e.logicalResourceId ++ "\"", fmtReason wrapFn e.resourceStatusReason]

namespace V2

/-- The finished regex of the aws-sdk v2 waitFor (same seven
alternatives, same end anchor). -/
def matchesFinished (status : String) : Bool :=
  CfnStack.terminalStatuses.any (fun t => t.data.isSuffixOf status.data)

/-- The filter/reverse step of the v2 waitFor: e.Timestamp >= start and
EventId not in the shown set. -/
def selectEvents (start : Int) (shown : List String) (events : List StackEvent) :
    List StackEvent :=
  (events.filter (fun e => decide (start ≤ e.timestamp) && !(shown.contains e.eventId))).reverse

/-- The forEach body of the v2 waitFor. -/
def processEvent (e : StackEvent) (s : LoopState) : LoopState :=
  { shown := e.eventId :: s.shown
    status := if e.resourceType = "AWS::CloudFormation::Stack"
              then e.resourceStatus.getD "" else s.status
    printed := s.printed ++ [e] }

/-- forEach over the selected events, left to right (v2). -/
def processEvents : List StackEvent → LoopState → LoopState
  | [], s => s
  | e :: es, s => processEvents es (processEvent e s)

/-- The while loop of the v2 waitFor, one modelled response per poll. -/
def waitForRun (start : Int) :
    List (List StackEvent) → LoopState → List (List StackEvent) × LoopState × Bool
  | [], s => ([], s, matchesFinished s.status)
  | r :: rest, s =>
    if matchesFinished s.status then ([], s, true)
    else
      let sel := selectEvents start s.shown r
      let res := waitForRun start rest (processEvents sel s)
      (sel :: res.1, res.2)

/-- The v2 getStackId, with the same message text. -/
def getStackId (name : String) (sts : Option (List StackRecord)) :
    Except String (Option String) :=
  match sts with
  | some [st] => Except.ok st.stackId
  | _ => Except.error ("No StackId for stack \"" ++ name ++ " found")

/-- The v2 waitFor. -/
def waitFor (name success : String) (start : Int)
    (stacksResp : Option (List StackRecord)) (responses : List (List StackEvent)) :
    Option (Except String (List (List StackEvent))) :=
  match getStackId name stacksResp with
  | Except.error msg => some (Except.error msg)
  | Except.ok _ =>
    let res := waitForRun start responses initState
    if res.2.2 then
      if res.2.1.status = success then some (Except.ok res.1)
      else some (Except.error ("Unexpected Stack Status " ++ res.2.1.status))
    else none

/-- The v2 getOutputs (same body as the v3 one, including the
truthiness guard o.OutputKey && o.OutputValue skipping missing or
empty keys and values). -/
def getOutputs (sts : Option (List StackRecord)) : List (String × String) :=
  match sts with
  | some [st] =>
    match st.outputs with
    | some os =>
      os.foldl
        (fun m o =>
          match o.outputKey, o.outputValue with
          | some k, some v => if k = "" ∨ v = "" then m else CfnStack.recordSet m k v
          | _, _ => m)
        []
    | none => []
  | _ => []

/-- The v2 fmtTime: date.toISOString().substr(11, 8), eight characters
starting at index 11. -/
def fmtTime (iso : String) : String := String.mk ((iso.data.drop 11).take 8)

/-- The v2 fmtReason (same body, same word-wrap options). -/
def fmtReason (wrapFn : String → String) (reason : Option String) : String :=
  match reason with
  | some r => if r = "" then "" else "\n" ++ wrapFn r
  | none => ""

/-- The line built by the v2 logEvent. -/
def logEventLine (wrapFn : String → String) (isoTs : String) (e : StackEvent) : String :=
  String.intercalate " "
    [fmtTime isoTs, e.resourceStatus.getD "", e.resourceType,
     "\"" ++ e.logicalResourceId ++ "\"", fmtReason wrapFn e.resourceStatusReason]

end V2

/-! Concrete gateway data used to evaluate the definitions on small
runs: a stack-aggregate event reaching UPDATE_ROLLBACK_COMPLETE, a
stack-aggregate event reaching UPDATE_COMPLETE, a child-resource event,
and small describeStacks responses. -/

/-- A stack-aggregate event whose status is UPDATE_ROLLBACK_COMPLETE, a
real CloudFormation terminal status that is not among the seven regex
alternatives. -/
def rollbackEvent : StackEvent :=
  { eventId := "ev-1", timestamp := 5, resourceType := "AWS::CloudFormation::Stack",
    logicalResourceId := "cfn-stack-test", resourceStatus := some "UPDATE_ROLLBACK_COMPLETE",
    resourceStatusReason := none }

/-- A stack-aggregate event whose status is UPDATE_COMPLETE. -/
def completeEvent : StackEvent :=
  { eventId := "ev-2", timestamp := 7, resourceType := "AWS::CloudFormation::Stack",
    logicalResourceId := "cfn-stack-test", resourceStatus := some "UPDATE_COMPLETE",
    resourceStatusReason := none }

/-- A child-resource event (an IAM role) that reaches a terminal-named
status string. -/
def roleEvent : StackEvent :=
  { eventId := "ev-3", timestamp := 6, resourceType := "AWS::IAM::Role",
    logicalResourceId := "SomeRole", resourceStatus := some "CREATE_COMPLETE",
    resourceStatusReason := none }

/-- An event older than any loop start used in the witnesses. -/
def staleEvent : StackEvent :=
  { eventId := "ev-0", timestamp := -3, resourceType := "AWS::IAM::Role",
    logicalResourceId := "SomeRole", resourceStatus := some "DELETE_COMPLETE",
    resourceStatusReason := none }

/-- A describeStacks response with exactly one stack record and no
outputs. -/
def oneStackResp : Option (List StackRecord) := some [{ stackId := some "id-1", outputs := none }]

/-- A stack input as built for the test stack. -/
def inputEx : StackInput := mkStackInput "cfn-stack-test" "Description: Test" [("Env", some "test1")]

/-- A validation error whose message names a missing stack. -/
def errDNE : AwsError :=
  { code := "ValidationError", message := "Stack with id cfn-stack-test does not exist" }

/-- A validation error whose message reports an unchanged stack. -/
def errUTD : AwsError :=
  { code := "ValidationError", message := "No updates are to be performed." }

/-- An error matching neither classification. -/
def errOther : AwsError :=
  { code := "AccessDenied", message := "User is not authorized to perform this action" }

/-- A validation error whose message contains both classification
substrings at once. -/
def errBoth : AwsError :=
  { code := "ValidationError",
    message := "Stack does not exist. No updates are to be performed." }

/-- An outputs list with one well-formed entry, two entries missing a
key or a value, and one entry whose value is the (falsy) empty
string. -/
def outputsEx : List Output :=
  [{ outputKey := some "Role", outputValue := some "arn:aws:iam::123:role/x" },
   { outputKey := some "Broken", outputValue := none },
   { outputKey := none, outputValue := some "orphan" },
   { outputKey := some "Empty", outputValue := some "" }]

/-- A single stack record carrying outputsEx. -/
def stackWithOutputs : StackRecord := { stackId := some "id-1", outputs := some outputsEx }

/-! Helper lemmas about the loop pipeline. -/

/-- processEvents appends exactly the processed events, in order, to
the printed log. -/
theorem processEvents_printed (l : List StackEvent) (s : LoopState) :
    (processEvents l s).printed = s.printed ++ l := by
  induction l generalizing s with
  | nil => simp [processEvents]
  | cons e es ih => simp [processEvents, ih, processEvent]

/-- The shown set only grows along processEvents. -/
theorem shown_mono (l : List StackEvent) (s : LoopState) (a : String)
    (h : a ∈ s.shown) : a ∈ (processEvents l s).shown := by
  induction l generalizing s with
  | nil => exact h
  | cons e es ih => exact ih _ (List.mem_cons_of_mem _ h)

/-- Every processed event's id lands in the shown set. -/
theorem shown_adds (l : List StackEvent) (s : LoopState) (e : StackEvent)
    (h : e ∈ l) : e.eventId ∈ (processEvents l s).shown := by
  induction l generalizing s with
  | nil => cases h
  | cons e' es ih =>
    rcases List.mem_cons.mp h with rfl | h'
    · exact shown_mono es _ _ (List.mem_cons_self _ _)
    · exact ih _ h'

/-- Membership in the filtered, reversed selection implies the filter
conditions and membership in the response. -/
theorem mem_selectEvents {start : Int} {shown : List String} {r : List StackEvent}
    {e : StackEvent} (h : e ∈ selectEvents start shown r) :
    start ≤ e.timestamp ∧ e.eventId ∉ shown ∧ e ∈ r := by
  unfold selectEvents at h
  rw [List.mem_reverse] at h
  have hp := List.of_mem_filter h
  have hm := List.mem_of_mem_filter h
  simp only [Bool.and_eq_true, decide_eq_true_eq, Bool.not_eq_true'] at hp
  refine ⟨hp.1, ?_, hm⟩
  intro hc
  rw [List.contains_eq_any_beq] at hp
  have : shown.any (e.eventId == ·) = true :=
    List.any_eq_true.mpr ⟨e.eventId, hc, by simp⟩
  simp [this] at hp

/-- The final printed log is the concatenation of the per-poll blocks:
the blocks returned by waitForRun are exactly the events printed, in
order. -/
theorem waitForRun_printed (start : Int) (rs : List (List StackEvent)) (s : LoopState) :
    (waitForRun start rs s).2.1.printed = s.printed ++ (waitForRun start rs s).1.flatten := by
  induction rs generalizing s with
  | nil => simp [waitForRun]
  | cons r rest ih =>
    by_cases hf : matchesFinished s.status
    · simp [waitForRun, hf]
    · simp only [waitForRun, hf, if_false, Bool.false_eq_true, List.flatten_cons]
      rw [ih, processEvents_printed, List.append_assoc]

/-- Every block of a run is the selection of some response against some
shown set. -/
theorem waitForRun_blocks_shape (start : Int) (rs : List (List StackEvent)) (s : LoopState) :
    ∀ b ∈ (waitForRun start rs s).1, ∃ r ∈ rs, ∃ sh, b = selectEvents start sh r := by
  induction rs generalizing s with
  | nil => simp [waitForRun]
  | cons r rest ih =>
    intro b hb
    by_cases hf : matchesFinished s.status
    · simp [waitForRun, hf] at hb
    · simp only [waitForRun, hf, if_false, Bool.false_eq_true] at hb
      rcases List.mem_cons.mp hb with rfl | hb'
      · exact ⟨r, List.mem_cons_self _ _, s.shown, rfl⟩
      · obtain ⟨r', hr', sh, rfl⟩ := ih _ b hb'
        exact ⟨r', List.mem_cons_of_mem _ hr', sh, rfl⟩

/-- Ids already in the shown set never occur in any block of the
remaining run. -/
theorem waitForRun_blocks_avoid (start : Int) (rs : List (List StackEvent)) (s : LoopState)
    (a : String) (ha : a ∈ s.shown) :
    ∀ b ∈ (waitForRun start rs s).1, ∀ e ∈ b, e.eventId ≠ a := by
  induction rs generalizing s with
  | nil => simp [waitForRun]
  | cons r rest ih =>
    intro b hb e he
    by_cases hf : matchesFinished s.status
    · simp [waitForRun, hf] at hb
    · simp only [waitForRun, hf, if_false, Bool.false_eq_true] at hb
      rcases List.mem_cons.mp hb with rfl | hb'
      · intro hEq
        exact (mem_selectEvents he).2.1 (hEq ▸ ha)
      · exact ih (processEvents _ s) (shown_mono _ _ _ ha) b hb' e he

/-- The finished guard holds exactly when some terminal alternative is
a suffix of the status string (the regex is anchored only at the end). -/
theorem matchesFinished_iff (st : String) :
    matchesFinished st = true ↔ ∃ t ∈ terminalStatuses, t.data <:+ st.data := by
  simp [matchesFinished]

/-- C1 counterexample: the status string UPDATE_ROLLBACK_COMPLETE is
outside the seven-element terminal set, so by the claim the loop should
perform another poll iteration; but the end-anchored regex matches it
as a suffix (via ROLLBACK_COMPLETE) and the loop exits: with a second
response queued, the run stops after one block, with that status. -/
theorem C1_counterexample :
    "UPDATE_ROLLBACK_COMPLETE" ∉ terminalStatuses ∧
    (waitForRun 0 [[rollbackEvent], [completeEvent]] initState).2.1.status
      = "UPDATE_ROLLBACK_COMPLETE" ∧
    (waitForRun 0 [[rollbackEvent], [completeEvent]] initState).2.2 = true ∧
    (waitForRun 0 [[rollbackEvent], [completeEvent]] initState).1 = [[rollbackEvent]] := by
  decide

/-- C1 (amended): the convergence loop exits (performing no further
poll iteration) exactly when one of the seven terminal values is a
SUFFIX of the tracked status string; for every status with such a
suffix (hence in particular every member of the set) the loop exits,
and for every status without one it polls again. -/
theorem C1_loop_guard (start : Int) (s : LoopState) (r : List StackEvent)
    (rest : List (List StackEvent)) :
    waitForRun start (r :: rest) s = ([], s, true) ↔
      ∃ t ∈ terminalStatuses, t.data <:+ s.status.data := by
  rw [← matchesFinished_iff]
  by_cases hf : matchesFinished s.status <;> simp [waitForRun, hf]

/-- C2: within one waitFor invocation, blocks printed by distinct poll
iterations never share an event id: once an id has been printed (and
added to the shown set), no later poll prints it again, for every
sequence of gateway responses and every starting state (the invocation
itself starts at initState). -/
theorem C2_no_reprint (start : Int) (rs : List (List StackEvent)) (s : LoopState) :
    List.Pairwise (fun b₁ b₂ => ∀ e₁ ∈ b₁, ∀ e₂ ∈ b₂, e₁.eventId ≠ e₂.eventId)
      (waitForRun start rs s).1 := by
  induction rs generalizing s with
  | nil => simp [waitForRun]
  | cons r rest ih =>
    by_cases hf : matchesFinished s.status
    · simp [waitForRun, hf]
    · simp only [waitForRun, hf, if_false, Bool.false_eq_true]
      refine List.Pairwise.cons ?_ (ih _)
      intro b hb e₁ h1 e₂ h2
      exact Ne.symm
        (waitForRun_blocks_avoid start rest _ _ (shown_adds _ _ _ h1) b hb e₂ h2)

/-- The selection step turns a strictly newest-first response into a
strictly oldest-first list. -/
theorem selectEvents_sorted (start : Int) (shown : List String) (r : List StackEvent)
    (h : List.Pairwise (fun a b => b.timestamp < a.timestamp) r) :
    List.Pairwise (fun a b => a.timestamp < b.timestamp) (selectEvents start shown r) := by
  unfold selectEvents
  rw [List.pairwise_reverse]
  exact List.Pairwise.filter _ h

/-- C3: when every gateway response lists events strictly newest-first,
every block of events printed by a poll iteration is strictly
oldest-first by timestamp (the filtered subset is reversed before
printing). -/
theorem C3_chronological (start : Int) (rs : List (List StackEvent)) (s : LoopState)
    (h : ∀ r ∈ rs, List.Pairwise (fun a b => b.timestamp < a.timestamp) r) :
    ∀ b ∈ (waitForRun start rs s).1,
      List.Pairwise (fun a b => a.timestamp < b.timestamp) b := by
  intro b hb
  obtain ⟨r, hr, sh, rfl⟩ := waitForRun_blocks_shape start rs s b hb
  exact selectEvents_sorted start sh r (h r hr)

/-- C3 witness: a newest-first response of two events is printed
oldest-first. -/
theorem C3_witness :
    List.Pairwise (fun a b => a.timestamp < b.timestamp) [roleEvent, completeEvent] :=
  C3_chronological 0 [[completeEvent, roleEvent]] initState (by decide)
    [roleEvent, completeEvent] (by decide)

/-- C4: processing an event whose resource type is not the stack
aggregate leaves the tracked status unchanged (even when its status
string names a terminal value) while still printing the event; hence a
whole block of child-resource events never changes the loop's
termination variable. -/
theorem C4_child_frame (e : StackEvent) (s : LoopState)
    (h : e.resourceType ≠ "AWS::CloudFormation::Stack") :
    (processEvent e s).status = s.status ∧
    (processEvent e s).printed = s.printed ++ [e] ∧
    (∀ l : List StackEvent, (∀ e' ∈ l, e'.resourceType ≠ "AWS::CloudFormation::Stack") →
      (processEvents l s).status = s.status) := by
  refine ⟨by simp [processEvent, h], rfl, fun l hl => ?_⟩
  induction l generalizing s with
  | nil => rfl
  | cons e' es ih =>
    rw [processEvents,
      ih (processEvent e' s) (fun x hx => hl x (List.mem_cons_of_mem _ hx))]
    simp [processEvent, hl e' (List.mem_cons_self _ _)]

/-- C4 witness: a child IAM role event carrying the terminal-named
status CREATE_COMPLETE is printed but leaves the status untouched. -/
theorem C4_witness :
    (processEvent roleEvent initState).status = initState.status ∧
    (processEvent roleEvent initState).printed = initState.printed ++ [roleEvent] :=
  ⟨(C4_child_frame roleEvent initState (by decide)).1,
   (C4_child_frame roleEvent initState (by decide)).2.1⟩

/-- C5: when the stack id resolves and the loop exits with final state
sf, waitFor throws Unexpected Stack Status carrying the actual status
exactly when that status differs from the expected one, and returns
normally (with the print trace) exactly when they agree. -/
theorem C5_expected_status (name success : String) (start : Int)
    (stacksResp : Option (List StackRecord)) (rs : List (List StackEvent))
    (sid : Option String) (hid : getStackId name stacksResp = Except.ok sid)
    (bs : List (List StackEvent)) (sf : LoopState)
    (hrun : waitForRun start rs initState = (bs, sf, true)) :
    (waitFor name success start stacksResp rs
        = some (Except.error ("Unexpected Stack Status " ++ sf.status)) ↔ sf.status ≠ success) ∧
    (waitFor name success start stacksResp rs = some (Except.ok bs) ↔ sf.status = success) := by
  unfold waitFor
  rw [hid, hrun]
  by_cases h : sf.status = success <;> simp [h]

/-- C5 witness: a run converging to UPDATE_COMPLETE with that status
expected returns the print trace without error. -/
theorem C5_witness :
    waitFor "cfn-stack-test" "UPDATE_COMPLETE" 0 oneStackResp [[completeEvent]]
      = some (Except.ok [[completeEvent]]) :=
  (C5_expected_status "cfn-stack-test" "UPDATE_COMPLETE" 0 oneStackResp [[completeEvent]]
      (some "id-1") rfl
      [[completeEvent]] ⟨["ev-2"], "UPDATE_COMPLETE", [completeEvent]⟩ (by decide)).2.mpr rfl

/-- C6: no printed event has a timestamp strictly before the loop-start
time: every event of every printed block satisfies start ≤ timestamp,
for every sequence of gateway responses. -/
theorem C6_timestamp_filter (start : Int) (rs : List (List StackEvent)) (s : LoopState) :
    ∀ b ∈ (waitForRun start rs s).1, ∀ e ∈ b, start ≤ e.timestamp := by
  intro b hb e he
  obtain ⟨r, hr, sh, rfl⟩ := waitForRun_blocks_shape start rs s b hb
  exact (mem_selectEvents he).1

/-- C6 witness: with a stale event (timestamp -3) in the response, the
printed block contains only the two fresh events, and each printed
event has a timestamp at or after the loop start. -/
theorem C6_witness : (0 : Int) ≤ roleEvent.timestamp :=
  C6_timestamp_filter 0 [[completeEvent, roleEvent, staleEvent]] initState
    [roleEvent, completeEvent] (by decide) roleEvent (by decide)

/-- C7: an update failure classified as does-not-exist (ValidationError
code and a message containing the substring) makes createOrUpdate
submit a create for the same stack input with OnFailure DELETE, log the
creating banner, and enter the convergence loop expecting
CREATE_COMPLETE instead of UPDATE_COMPLETE. -/
theorem C7_create_fallback (input : StackInput) (err : AwsError)
    (h1 : err.code = "ValidationError")
    (h2 : strContains err.message "does not exist" = true) :
    createOrUpdate input (Except.error err) (Except.ok ()) =
      ([COUStep.calledCreate "DELETE" input,
        COUStep.loggedAction "Creating new stack",
        COUStep.waited "CREATE_COMPLETE"], none) := by
  simp [createOrUpdate, stackDoesNotExist, h1, h2]

/-- C7 witness: a concrete does-not-exist validation error takes the
create path with CREATE_COMPLETE expected. -/
theorem C7_witness :
    createOrUpdate inputEx (Except.error errDNE) (Except.ok ()) =
      ([COUStep.calledCreate "DELETE" inputEx,
        COUStep.loggedAction "Creating new stack",
        COUStep.waited "CREATE_COMPLETE"], none) :=
  C7_create_fallback inputEx errDNE rfl (by decide)

/-- C8 counterexample: an error satisfying the claim's no-updates
classification (ValidationError code, message containing the
No-updates substring) whose message also contains does not exist is
routed to the create branch, which DOES invoke the polling loop —
refuting the claim that such an error returns without entering it. -/
theorem C8_counterexample :
    stackIsUpToDate errBoth = true ∧
    (createOrUpdate inputEx (Except.error errBoth) (Except.ok ())).1 =
      [COUStep.calledCreate "DELETE" inputEx,
       COUStep.loggedAction "Creating new stack",
       COUStep.waited "CREATE_COMPLETE"] := by
  decide

/-- C8 (amended): an update failure classified as no-updates that is
NOT also classified as does-not-exist (that classification is checked
first and takes precedence) makes createOrUpdate log the no-updates
banner and return without error and without entering the loop; a
failure matching neither classification propagates unchanged. -/
theorem C8_up_to_date (input : StackInput) (cr : Except AwsError Unit) (err : AwsError) :
    (stackDoesNotExist err = false → err.code = "ValidationError" →
      strContains err.message "No updates are to be performed" = true →
      createOrUpdate input (Except.error err) cr =
        ([COUStep.loggedAction "No updates needed for stack"], none)) ∧
    (stackDoesNotExist err = false → stackIsUpToDate err = false →
      createOrUpdate input (Except.error err) cr = ([], some err)) := by
  constructor
  · intro hdne h1 h2
    simp [createOrUpdate, hdne, stackIsUpToDate, h1, h2]
  · intro hdne hutd
    simp [createOrUpdate, hdne, hutd]

/-- C8 witness: a plain no-updates error short-circuits without a
waited step, and an unrelated error propagates unchanged. -/
theorem C8_witness :
    createOrUpdate inputEx (Except.error errUTD) (Except.ok ()) =
      ([COUStep.loggedAction "No updates needed for stack"], none) ∧
    createOrUpdate inputEx (Except.error errOther) (Except.ok ()) = ([], some errOther) :=
  ⟨(C8_up_to_date inputEx (Except.ok ()) errUTD).1 (by decide) rfl (by decide),
   (C8_up_to_date inputEx (Except.ok ()) errOther).2 (by decide) (by decide)⟩

/-- recordSet with a key absent from the record appends the pair at the
end. -/
theorem recordSet_append (m : List (String × String)) (k v : String)
    (h : k ∉ m.map Prod.fst) : recordSet m k v = m ++ [(k, v)] := by
  induction m with
  | nil => rfl
  | cons p rest ih =>
    obtain ⟨k', v'⟩ := p
    have hk : k' ≠ k := fun hEq => h (by simp [hEq])
    simp only [recordSet, if_neg hk, List.cons_append, List.cons.injEq, true_and]
    exact ih (fun hx => h (List.mem_cons_of_mem _ hx))

/-- The getOutputs fold over outputs whose kept keys are fresh and
pairwise distinct appends exactly the pairs passing the truthiness
guard (both present and both non-empty). -/
theorem getOutputs_foldl_eq (os : List Output) (m : List (String × String))
    (h : ((m ++ os.filterMap fun o => o.outputKey.bind fun k => o.outputValue.bind fun v =>
        if k = "" ∨ v = "" then none else some (k, v)).map Prod.fst).Nodup) :
    os.foldl
        (fun m o =>
          match o.outputKey, o.outputValue with
          | some k, some v => if k = "" ∨ v = "" then m else recordSet m k v
          | _, _ => m)
        m
      = m ++ os.filterMap (fun o => o.outputKey.bind fun k => o.outputValue.bind fun v =>
          if k = "" ∨ v = "" then none else some (k, v)) := by
  induction os generalizing m with
  | nil => simp
  | cons o os' ih =>
    rcases hko : o.outputKey with _ | k
    · simp only [List.foldl_cons, List.filterMap_cons, hko, Option.none_bind]
      exact ih m (by simpa [List.filterMap_cons, hko] using h)
    · rcases hvo : o.outputValue with _ | v
      · simp only [List.foldl_cons, List.filterMap_cons, hko, hvo, Option.some_bind,
          Option.none_bind]
        exact ih m (by simpa [List.filterMap_cons, hko, hvo] using h)
      · by_cases hemp : k = "" ∨ v = ""
        · simp only [List.foldl_cons, List.filterMap_cons, hko, hvo, Option.some_bind,
            if_pos hemp]
          exact ih m (by simpa [List.filterMap_cons, hko, hvo, hemp] using h)
        · have hmap : ((m ++ (k, v) :: os'.filterMap fun o => o.outputKey.bind fun k =>
              o.outputValue.bind fun v => if k = "" ∨ v = "" then none else
                some (k, v)).map Prod.fst).Nodup := by
            simpa [List.filterMap_cons, hko, hvo, hemp] using h
          have hknotm : k ∉ m.map Prod.fst := by
            intro hkm
            rw [List.map_append] at hmap
            have := (List.nodup_append.mp hmap).2.2 hkm
            simp at this
          simp only [List.foldl_cons, hko, hvo, List.filterMap_cons, Option.some_bind,
            if_neg hemp]
          rw [recordSet_append m k v hknotm,
            ih (m ++ [(k, v)]) (by simpa [List.filterMap_cons, hko, hvo, hemp] using h)]
          simp

/-- C9: with exactly one stack record carrying an outputs list whose
kept entries have pairwise distinct keys, getOutputs returns exactly
the outputs having both a key and a value (in the source's truthiness
sense: present and non-empty, since the empty string is falsy in JS),
in order, omitting the rest; and for a lookup yielding zero or more
than one records it returns the empty mapping (the function is total,
so no error is thrown). -/
theorem C9_outputs (st : StackRecord) (os : List Output)
    (ho : st.outputs = some os)
    (hnd : ((os.filterMap fun o => o.outputKey.bind fun k => o.outputValue.bind fun v =>
        if k = "" ∨ v = "" then none else some (k, v)).map Prod.fst).Nodup) :
    getOutputs (some [st])
        = os.filterMap (fun o => o.outputKey.bind fun k => o.outputValue.bind fun v =>
            if k = "" ∨ v = "" then none else some (k, v)) ∧
    (∀ sts : Option (List StackRecord), (∀ l, sts = some l → l.length ≠ 1) →
      getOutputs sts = []) := by
  constructor
  · simp only [getOutputs, ho]
    exact getOutputs_foldl_eq os [] (by simpa using hnd)
  · intro sts hlen
    rcases sts with _ | l
    · rfl
    · rcases l with _ | ⟨a, _ | ⟨b, l⟩⟩
      · rfl
      · exact absurd rfl (hlen [a] rfl)
      · rfl

/-- C9 witness: the record with outputs Role = arn:aws:iam::123:role/x
(plus two entries missing a key or value and one with an empty, falsy
value) yields exactly the Role mapping; a none response and a
two-record response both yield the empty mapping. -/
theorem C9_witness :
    getOutputs (some [stackWithOutputs]) = [("Role", "arn:aws:iam::123:role/x")] ∧
    getOutputs none = [] ∧
    getOutputs (some [stackWithOutputs, stackWithOutputs]) = [] :=
  ⟨((C9_outputs stackWithOutputs outputsEx rfl (by decide)).1).trans (by decide),
   (C9_outputs stackWithOutputs outputsEx rfl (by decide)).2 none
     (fun l hl => Option.noConfusion hl),
   (C9_outputs stackWithOutputs outputsEx rfl (by decide)).2
     (some [stackWithOutputs, stackWithOutputs])
     (fun l hl => by cases hl; decide)⟩

/-! Equality of the aws-sdk v2 and v3 embeddings, layer by layer. -/

/-- The two finished guards agree. -/
theorem v2_matchesFinished_eq : V2.matchesFinished = matchesFinished := rfl

/-- The two selection steps agree. -/
theorem v2_selectEvents_eq : V2.selectEvents = selectEvents := rfl

/-- The two forEach folds agree. -/
theorem v2_processEvents_eq (l : List StackEvent) (s : LoopState) :
    V2.processEvents l s = processEvents l s := by
  induction l generalizing s with
  | nil => rfl
  | cons e es ih =>
    rw [V2.processEvents, processEvents]
    exact ih _

/-- The two polling loops agree on every response sequence and state. -/
theorem v2_waitForRun_eq (start : Int) (rs : List (List StackEvent)) (s : LoopState) :
    V2.waitForRun start rs s = waitForRun start rs s := by
  induction rs generalizing s with
  | nil => rfl
  | cons r rest ih =>
    rw [V2.waitForRun, waitForRun]
    simp only [v2_matchesFinished_eq, v2_selectEvents_eq, v2_processEvents_eq, ih]

/-- The two id resolutions agree. -/
theorem v2_getStackId_eq : V2.getStackId = getStackId := rfl

/-- The two time formatters agree on every ISO string: substr(11, 8)
and substring(11, 19) select the same eight characters. -/
theorem v2_fmtTime_eq (iso : String) : V2.fmtTime iso = fmtTime iso := by
  unfold V2.fmtTime fmtTime
  rw [List.take_drop]

/-- The two reason formatters agree. -/
theorem v2_fmtReason_eq : V2.fmtReason = fmtReason := rfl

/-- C10: the aws-sdk v2 and v3 Stack classes are behaviourally
equivalent on the modelled surface: for identical gateway responses
and inputs, waitFor prints the same events in the same order and
returns or throws identically, getOutputs returns the same mapping,
and logEvent builds the same line for every event (the two time
formatters select the same characters). -/
theorem C10_v2_v3_equiv :
    (∀ (name success : String) (start : Int) (stacksResp : Option (List StackRecord))
        (responses : List (List StackEvent)),
      V2.waitFor name success start stacksResp responses
        = waitFor name success start stacksResp responses) ∧
    (∀ sts : Option (List StackRecord), V2.getOutputs sts = getOutputs sts) ∧
    (∀ (wrapFn : String → String) (isoTs : String) (e : StackEvent),
      V2.logEventLine wrapFn isoTs e = logEventLine wrapFn isoTs e) := by
  refine ⟨fun name success start stacksResp responses => ?_, fun sts => rfl,
    fun wrapFn isoTs e => ?_⟩
  · unfold V2.waitFor waitFor
    rw [v2_getStackId_eq, v2_waitForRun_eq]
  · unfold V2.logEventLine logEventLine
    rw [v2_fmtTime_eq, v2_fmtReason_eq]

end CfnStack
